import Mathlib

/-!
Verification development for the socket-worker core of the aquatic
BitTorrent tracker (HTTP-over-TLS and WebSocket variants).

The definitions below are a shallow embedding of
src/aquatic_http/src/lib/glommio/network.rs and
src/aquatic_ws/src/lib/network/mod.rs. External effects (socket reads,
TLS processing, channel send outcomes, the request/response codec) are
passed in as explicit parameters, so every definition is executable.
Machine integers are modelled as Nat with explicit wrap-around where the
source relies on it.
-/

/-- 20-byte BitTorrent info hash (aquatic_http_protocol::common::InfoHash,
a newtype over a 20-byte array). Only byte 0 is consulted for sharding. -/
structure InfoHash where
  bytes : Fin 20 → Fin 256

instance : DecidableEq InfoHash := fun a b =>
  if h : a.bytes = b.bytes then Decidable.isTrue (by cases a; cases b; simpa using h)
  else Decidable.isFalse (fun hh => h (congrArg InfoHash.bytes hh))

/-- Swarm statistics carried in scrape responses (external protocol type;
fields are opaque to the socket worker). -/
structure ScrapeStatistics where
  complete : Nat
  incomplete : Nat
  deriving DecidableEq

/-- The slice of the configuration consulted by the code under study:
request_workers (the shard modulus R) and network.keep_alive. -/
structure Config where
  request_workers : Nat
  network_keep_alive : Bool
  deriving DecidableEq

/-- Announce request (external protocol type); only info_hash is consulted
by the socket worker for dispatch. -/
structure AnnounceRequest where
  info_hash : InfoHash
  deriving DecidableEq

/-- Scrape request (external protocol type): a set of info hashes, kept as
the list in which they were parsed. -/
structure ScrapeRequest where
  info_hashes : List InfoHash
  deriving DecidableEq

/-- Parsed tracker request (aquatic_http_protocol::request::Request). -/
inductive Request
  | announce (request : AnnounceRequest)
  | scrape (request : ScrapeRequest)
  deriving DecidableEq

/-- Announce response (external protocol type; opaque payload). -/
structure AnnounceResponse where
  payload : List Nat
  deriving DecidableEq

/-- Scrape response: the files map from info hash to statistics, kept in
key order (BTreeMap is modelled as a key-sorted association list). -/
structure ScrapeResponse where
  files : List (InfoHash × ScrapeStatistics)
  deriving DecidableEq

/-- Failure response; the reason is kept as its byte string. -/
structure FailureResponse where
  failure_reason : List Nat
  deriving DecidableEq

/-- Tracker response (aquatic_http_protocol::response::Response). -/
inductive Response
  | announce (response : AnnounceResponse)
  | scrape (response : ScrapeResponse)
  | failure (response : FailureResponse)
  deriving DecidableEq

/-- Modelled from the spec: ChannelRequest (glommio::common, not under
src/) - a request-mesh message carrying the routing envelope
(consumer_id, connection_id, peer_addr) alongside the request, matching
the constructor applications in network.rs. Peer addresses are opaque
identifiers. -/
inductive ChannelRequest
  | announce (request : AnnounceRequest) (connection_id : Nat)
      (response_consumer_id : Nat) (peer_addr : Nat)
  | scrape (request : ScrapeRequest) (peer_addr : Nat)
      (response_consumer_id : Nat) (connection_id : Nat)
  deriving DecidableEq

/-- Modelled from the spec: ChannelResponse (glommio::common, not under
src/) - a response-mesh message whose envelope is copied verbatim from the
request, with accessors get_connection_id and get_peer_addr as used in
network.rs. -/
inductive ChannelResponse
  | announce (response : AnnounceResponse) (peer_addr : Nat)
      (connection_id : Nat) (consumer_id : Nat)
  | scrape (response : ScrapeResponse) (peer_addr : Nat)
      (connection_id : Nat) (consumer_id : Nat)
  deriving DecidableEq

def ChannelResponse.get_connection_id : ChannelResponse → Nat
  | ChannelResponse.announce _ _ cid _ => cid
  | ChannelResponse.scrape _ _ cid _ => cid

def ChannelResponse.get_peer_addr : ChannelResponse → Nat
  | ChannelResponse.announce _ pa _ _ => pa
  | ChannelResponse.scrape _ pa _ _ => pa

/-- Pending multi-shard scrape reassembly state (PendingScrapeResponse in
network.rs); stats models the BTreeMap as a key-sorted association list. -/
structure PendingScrapeResponse where
  pending_worker_responses : Nat
  stats : List (InfoHash × ScrapeStatistics)
  deriving DecidableEq

/-- The byte sequence of an info hash, used for the BTreeMap key order. -/
def InfoHash.byteList (a : InfoHash) : List Nat :=
  List.ofFn fun i => (a.bytes i).val

/-- Lexicographic strict order on byte sequences (the BTreeMap key order
on 20-byte arrays). -/
def bytesLt : List Nat → List Nat → Bool
  | [], [] => false
  | [], _ :: _ => true
  | _ :: _, [] => false
  | a :: as, b :: bs => if a < b then true else if b < a then false else bytesLt as bs

/-- BTreeMap insert for the stats map: replaces the value on an equal key,
otherwise inserts at the sorted position. -/
def statsInsert (k : InfoHash) (v : ScrapeStatistics) :
    List (InfoHash × ScrapeStatistics) → List (InfoHash × ScrapeStatistics)
  | [] => [(k, v)]
  | (k2, v2) :: rest =>
    if bytesLt k.byteList k2.byteList then (k, v) :: (k2, v2) :: rest
    else if k = k2 then (k, v) :: rest
    else (k2, v2) :: statsInsert k v rest

/-- BTreeMap::extend on the stats map: insert every entry of files. -/
def statsExtend (m : List (InfoHash × ScrapeStatistics))
    (files : List (InfoHash × ScrapeStatistics)) : List (InfoHash × ScrapeStatistics) :=
  files.foldl (fun acc p => statsInsert p.1 p.2 acc) m

/-- Per-connection state of the HTTP variant (struct Connection in
network.rs). The TLS session is modelled by the queue of plaintext bytes
handed to the TLS writer and not yet flushed (tls_plaintext_out); the
stream peer address is the live peer_addr field. -/
structure Connection where
  config : Config
  connection_id : Nat
  response_consumer_id : Nat
  peer_addr : Nat
  request_buffer : List Nat
  close_after_writing : Bool
  pending_scrape_response : Option PendingScrapeResponse
  tls_plaintext_out : List Nat
  deriving DecidableEq

/-- Connection construction at accept time (run_socket_worker, the
Connection literal): empty request buffer, close_after_writing false, no
pending scrape. -/
def newConnection (config : Config) (connection_id : Nat)
    (response_consumer_id : Nat) (peer_addr : Nat) : Connection :=
  { config := config
    connection_id := connection_id
    response_consumer_id := response_consumer_id
    peer_addr := peer_addr
    request_buffer := []
    close_after_writing := false
    pending_scrape_response := none
    tls_plaintext_out := [] }

/-- calculate_request_consumer_index from network.rs:
(info_hash.0[0] as usize) % config.request_workers. -/
def calculate_request_consumer_index (config : Config) (info_hash : InfoHash) : Nat :=
  (info_hash.bytes 0).val % config.request_workers

/-- One BTreeMap entry-or-default push:
info_hashes_by_worker.entry(index).or_default().push(info_hash), on a
key-sorted association list. -/
def btreeEntryPush (k : Nat) (h : InfoHash) :
    List (Nat × List InfoHash) → List (Nat × List InfoHash)
  | [] => [(k, [h])]
  | (k2, v) :: rest =>
    if k < k2 then (k, [h]) :: (k2, v) :: rest
    else if k = k2 then (k2, v ++ [h]) :: rest
    else (k2, v) :: btreeEntryPush k h rest

/-- The grouping loop of the scrape arm of Connection::handle_request:
fold the request info hashes into a BTreeMap from consumer index to the
list of info hashes pushed for it. -/
def info_hashes_by_worker (config : Config) (hs : List InfoHash) :
    List (Nat × List InfoHash) :=
  hs.foldl (fun m h => btreeEntryPush (calculate_request_consumer_index config h) h m) []

/-- Modelled from the spec: the bounded non-blocking mesh send
(Senders::try_send_to, glommio library). The outcome of each send is an
environment parameter env (true = accepted, false = Backpressured). The
dispatch loop records delivered messages and one warning log per failed
send, and never retries. -/
def dispatchAll (env : Nat → Bool) :
    List (Nat × ChannelRequest) → List (Nat × ChannelRequest) × Nat
  | [] => ([], 0)
  | a :: rest =>
    let r := dispatchAll env rest
    if env a.1 then (a :: r.1, r.2) else (r.1, r.2 + 1)

/-- Result of Connection::handle_request: the send attempts in order, the
subset actually accepted by the mesh, the number of warning logs, the new
connection state, and the Rust Result value. -/
structure DispatchResult where
  attempts : List (Nat × ChannelRequest)
  delivered : List (Nat × ChannelRequest)
  warnings : Nat
  state : Connection
  result : Except Unit Unit

/-- Connection::handle_request from network.rs. The announce arm sends one
message to calculate_request_consumer_index; the scrape arm groups the
info hashes by consumer index, records the group count as
pending_worker_responses with empty stats, and sends one message per
group. Send failures are logged and otherwise ignored; the function
returns Ok in all modelled cases (get_peer_addr is modelled as always
available on a live connection). -/
def handle_request (env : Nat → Bool) (s : Connection) : Request → DispatchResult
  | Request.announce request =>
    let idx := calculate_request_consumer_index s.config request.info_hash
    let msg := ChannelRequest.announce request s.connection_id
      s.response_consumer_id s.peer_addr
    let d := dispatchAll env [(idx, msg)]
    { attempts := [(idx, msg)]
      delivered := d.1
      warnings := d.2
      state := s
      result := Except.ok () }
  | Request.scrape request =>
    let groups := info_hashes_by_worker s.config request.info_hashes
    let pending : PendingScrapeResponse :=
      { pending_worker_responses := groups.length, stats := [] }
    let s2 := { s with pending_scrape_response := some pending }
    let attempts := groups.map fun p =>
      (p.1, ChannelRequest.scrape { info_hashes := p.2 } s.peer_addr
        s.response_consumer_id s.connection_id)
    let d := dispatchAll env attempts
    { attempts := attempts
      delivered := d.1
      warnings := d.2
      state := s2
      result := Except.ok () }

/-- The info hashes carried by a mesh message (empty for announce). -/
def scrapeHashesOf : ChannelRequest → List InfoHash
  | ChannelRequest.announce _ _ _ _ => []
  | ChannelRequest.scrape request _ _ _ => request.info_hashes

/-- The pending response count of a connection, when a scrape is pending. -/
def pendingCountOf (s : Connection) : Option Nat :=
  s.pending_scrape_response.map fun p => p.pending_worker_responses

/-- Keys of the grouping association list. -/
def keysOf (m : List (Nat × List InfoHash)) : List Nat := m.map Prod.fst

/-- Group contents under a key, following BTreeMap lookup. -/
def groupOf (q : Nat) (m : List (Nat × List InfoHash)) : List InfoHash :=
  match m.find? fun p => p.1 == q with
  | some p => p.2
  | none => []



/-- Configuration with three request workers, used as a concrete instance. -/
def cfg3 : Config := { request_workers := 3, network_keep_alive := true }

/-- Configuration with four request workers, used as a concrete instance. -/
def cfg4 : Config := { request_workers := 4, network_keep_alive := true }

/-- Info hash whose twenty bytes all equal b (so byte 0 is b). -/
def constHash (b : Fin 256) : InfoHash := { bytes := fun _ => b }

/-- A live connection against cfg3, peer address 7. -/
def conn3 : Connection := newConnection cfg3 0 0 7

/-- A live connection against cfg4, peer address 7. -/
def conn4 : Connection := newConnection cfg4 1 0 7

/-- The scrape hash set of the spec scenario: byte 0 values 0, 3, 6, 7. -/
def scrapeHs : List InfoHash := [constHash 0, constHash 3, constHash 6, constHash 7]

/-- ASCII bytes of a string literal. -/
def asciiBytes (s : String) : List Nat := s.toList.map Char.toNat

/-- Fuel-indexed decimal digit count; the fuel always suffices when it
exceeds the argument. -/
def num_digits_in_usizeAux : Nat → Nat → Nat
  | 0, _ => 0
  | fuel + 1, n => if n < 10 then 1 else num_digits_in_usizeAux fuel (n / 10) + 1

/-- Modelled from the spec: num_digits_in_usize (crate::common, not under
src/) - the number of decimal digits of a usize. -/
def num_digits_in_usize (n : Nat) : Nat := num_digits_in_usizeAux (n + 1) n

/-- Fuel-indexed decimal serialization, most significant digit first. -/
def itoaBytesAux : Nat → Nat → List Nat
  | 0, _ => []
  | fuel + 1, n =>
    if n < 10 then [48 + n] else itoaBytesAux fuel (n / 10) ++ [48 + n % 10]

/-- Decimal ASCII serialization of a usize with no leading zeros
(itoa::write, an external crate, treated as a pure codec). -/
def itoaBytes (n : Nat) : List Nat := itoaBytesAux (n + 1) n

/-- Result of Connection::queue_response: the computed content length, the
capacity passed to the buffer allocation, the emitted bytes and the new
connection state. -/
structure QueueResult where
  content_len : Nat
  capacity : Nat
  response_bytes : List Nat
  state : Connection

/-- Connection::queue_response from network.rs. The codec wr stands for
Response::write (external, pure). content_len is body length + 2 for the
trailing CRLF; the buffer is allocated with capacity
39 + digits(content_len) + body length; the bytes are the status line and
Content-Length header, a blank line, the body, and the trailing CRLF, all
handed to the TLS writer (appended to the plaintext queue). -/
def queue_response (wr : Response → List Nat) (s : Connection) (response : Response) :
    QueueResult :=
  let body := wr response
  let content_len := body.length + 2
  let content_len_num_digits := num_digits_in_usize content_len
  let capacity := 39 + content_len_num_digits + body.length
  let response_bytes :=
    asciiBytes ("HTTP/1.1 200 OK\r\nContent-Length: ")
      ++ itoaBytes content_len
      ++ asciiBytes ("\r\n\r\n")
      ++ body
      ++ asciiBytes ("\r\n")
  { content_len := content_len
    capacity := capacity
    response_bytes := response_bytes
    state := { s with tls_plaintext_out := s.tls_plaintext_out ++ response_bytes } }

/-- Outcome of Request::from_bytes on the accumulated buffer (external
parser, treated as an oracle parameter). -/
inductive ParseOutcome
  | parsed (request : Request)
  | needMoreData
  | invalid

/-- One iteration of the read loop of Connection::read_tls, as seen through
its effects: the number of bytes the socket read returned, the plaintext
the TLS session produced from them, whether process_new_packets failed, and
whether the session wants to write afterwards. -/
structure ReadEvent where
  bytes_read : Nat
  plaintext : List Nat
  tls_error : Bool
  wants_write : Bool

/-- TLS-layer error propagated out of read_tls. -/
inductive TlsError
  | processPackets
  deriving DecidableEq

/-- The failure response queued for an unparsable request. -/
def invalidRequestResponse : Response :=
  Response.failure { failure_reason := asciiBytes ("Invalid request") }

/-- Connection::read_tls from network.rs, over a finite trace of read
events. A zero-byte read marks the peer as closed (set close_after_writing,
stop). A TLS processing failure is an error. Produced plaintext is appended
to the request buffer; when plaintext was added the buffer is parsed:
a parsed request returns immediately, an invalid request queues the failure
response, sets close_after_writing and stops, and NeedMoreData continues.
The loop also stops when the TLS session wants to write. An exhausted trace
models a connection still suspended in the socket read. -/
def read_tls (wr : Response → List Nat) (parse : List Nat → ParseOutcome) :
    Connection → List ReadEvent → Except TlsError (Connection × Option Request)
  | s, [] => Except.ok (s, none)
  | s, ev :: rest =>
    if ev.bytes_read = 0 then
      Except.ok ({ s with close_after_writing := true }, none)
    else if ev.tls_error then
      Except.error TlsError.processPackets
    else
      let s1 := { s with request_buffer := s.request_buffer ++ ev.plaintext }
      if ev.plaintext.isEmpty then
        if ev.wants_write then Except.ok (s1, none) else read_tls wr parse s1 rest
      else
        match parse s1.request_buffer with
        | ParseOutcome.parsed request => Except.ok (s1, some request)
        | ParseOutcome.needMoreData =>
          if ev.wants_write then Except.ok (s1, none) else read_tls wr parse s1 rest
        | ParseOutcome.invalid =>
          let s2 := (queue_response wr s1 invalidRequestResponse).state
          Except.ok ({ s2 with close_after_writing := true }, none)

/-- Connection::write_tls from network.rs: flush all pending session output
to the socket (TLS encryption is out of scope, so the plaintext queue
stands for the pending session data). Returns the new state and the bytes
written. -/
def write_tls (s : Connection) : Connection × List Nat :=
  ({ s with tls_plaintext_out := [] }, s.tls_plaintext_out)

/-- Errors of Connection::wait_for_and_send_response. -/
inductive WaitError
  | peerAddrMismatch
  | scrapeWithoutPending
  | receiverClosed
  deriving DecidableEq

/-- The tail of Connection::wait_for_and_send_response once the gather loop
breaks with a response: queue it, then set close_after_writing unless
network.keep_alive is on. -/
def finishResponse (wr : Response → List Nat) (s : Connection) (response : Response) :
    Except WaitError (Connection × Option Response) :=
  let s1 := (queue_response wr s response).state
  let s2 := if s1.config.network_keep_alive then s1 else { s1 with close_after_writing := true }
  Except.ok (s2, some response)

/-- Connection::wait_for_and_send_response from network.rs, over the finite
trace of channel responses delivered to the connection inbox. Every
response envelope peer address is compared against the live peer address
before being accepted; a mismatch is an error. An announce response
completes at once; a scrape response without a pending slot is an error,
with a slot it is merged (stats extended, pending count decremented,
saturating at zero where Rust debug builds would panic on underflow),
completing when the count reaches zero. An exhausted trace models a
connection still suspended in recv; recv yields None only when the sender
side is closed, which is the receiverClosed error. -/
def wait_for_and_send_response (wr : Response → List Nat) (senderClosed : Bool) :
    Connection → List ChannelResponse → Except WaitError (Connection × Option Response)
  | s, [] =>
    if senderClosed then Except.error WaitError.receiverClosed else Except.ok (s, none)
  | s, cr :: rest =>
    if cr.get_peer_addr ≠ s.peer_addr then Except.error WaitError.peerAddrMismatch
    else
      match cr with
      | ChannelResponse.announce response _ _ _ =>
        finishResponse wr s (Response.announce response)
      | ChannelResponse.scrape response _ _ _ =>
        match s.pending_scrape_response with
        | some pending =>
          let pending2 : PendingScrapeResponse :=
            { pending_worker_responses := pending.pending_worker_responses - 1
              stats := statsExtend pending.stats response.files }
          if pending2.pending_worker_responses = 0 then
            finishResponse wr { s with pending_scrape_response := none }
              (Response.scrape { files := pending2.stats })
          else
            wait_for_and_send_response wr senderClosed
              { s with pending_scrape_response := some pending2 } rest
        | none => Except.error WaitError.scrapeWithoutPending

/-- Errors propagated out of Connection::handle_stream, ending the task. -/
inductive StreamError
  | tls (e : TlsError)
  | wait (e : WaitError)
  deriving DecidableEq

/-- One iteration of the Connection::handle_stream loop: read_tls; when a
request was parsed, handle_request then wait_for_and_send_response; then
write_tls; report whether the loop will shut the stream down
(close_after_writing). Any error propagates out, terminating the task. -/
def handle_stream_step (env : Nat → Bool) (wr : Response → List Nat)
    (parse : List Nat → ParseOutcome) (senderClosed : Bool) (s : Connection)
    (events : List ReadEvent) (incoming : List ChannelResponse) :
    Except StreamError (Connection × Bool) :=
  match read_tls wr parse s events with
  | Except.error e => Except.error (StreamError.tls e)
  | Except.ok (s1, none) =>
    let w := write_tls s1
    Except.ok (w.1, w.1.close_after_writing)
  | Except.ok (s1, some request) =>
    let d := handle_request env s1 request
    match wait_for_and_send_response wr senderClosed d.state incoming with
    | Except.error e => Except.error (StreamError.wait e)
    | Except.ok (s2, _) =>
      let w := write_tls s2
      Except.ok (w.1, w.1.close_after_writing)

/-- End-to-end model of one scrape request: dispatch it with handle_request,
let every delivered mesh message produce exactly one scrape response from
its request worker (workerFiles gives each consumer index its files), with
the routing envelope copied verbatim, and run the response gather loop on
those responses. -/
def scrape_session (env : Nat → Bool) (wr : Response → List Nat) (s : Connection)
    (hs : List InfoHash) (workerFiles : Nat → List (InfoHash × ScrapeStatistics)) :
    Except WaitError (Connection × Option Response) :=
  let d := handle_request env s (Request.scrape { info_hashes := hs })
  let incoming := d.delivered.map fun a =>
    ChannelResponse.scrape { files := workerFiles a.1 } s.peer_addr
      s.connection_id s.response_consumer_id
  wait_for_and_send_response wr false d.state incoming

/-- The per-connection entry held in the socket worker connection slab
(ConnectionReference in network.rs): the local response inbox, modelled
with its current contents and its bound (new_bounded capacity). -/
structure ConnectionReference where
  inbox : List ChannelResponse
  inbox_capacity : Nat
  deriving DecidableEq

/-- Modelled from the spec: LocalSender::try_send (glommio library) - a
non-blocking bounded send into the connection inbox; fails when the inbox
is at capacity. -/
def inbox_try_send (r : ConnectionReference) (resp : ChannelResponse) :
    Option ConnectionReference :=
  if r.inbox.length < r.inbox_capacity then
    some { r with inbox := r.inbox ++ [resp] }
  else
    none

/-- Log entries emitted by the response demultiplexer. -/
inductive DemuxLog
  | sendFailed
  deriving DecidableEq

/-- Outcome of one demultiplexer step: the slab afterwards, the error logs
emitted, and whether the response reached an inbox. -/
structure DemuxStep where
  slab : Nat → Option ConnectionReference
  logs : List DemuxLog
  delivered : Bool

/-- One iteration of receive_responses from network.rs: look the connection
up in the slab by the envelope connection id; when present, try_send the
response into its inbox, logging an error when the inbox is full; when the
entry is gone, do nothing. The function is total, so the step never blocks
on the inbox. -/
def receive_responses_step (slab : Nat → Option ConnectionReference)
    (resp : ChannelResponse) : DemuxStep :=
  match slab resp.get_connection_id with
  | none => { slab := slab, logs := [], delivered := false }
  | some reference =>
    match inbox_try_send reference resp with
    | some reference2 =>
      { slab := Function.update slab resp.get_connection_id (some reference2)
        logs := []
        delivered := true }
    | none => { slab := slab, logs := [DemuxLog.sendFailed], delivered := false }

/-- WebSocket out message (aquatic_ws_protocol::OutMessage; opaque). -/
structure OutMessage where
  payload : Nat
  deriving DecidableEq

/-- Modelled from the spec: the established half of a WebSocket connection
(connection.rs, not under src/), as consulted by mod.rs: its peer address
and the messages written to its socket so far. -/
structure EstablishedWs where
  peer_addr : Nat
  written : List OutMessage
  deriving DecidableEq

/-- Modelled from the spec: a WebSocket connection (connection.rs, not
under src/) is either still in its TLS or WebSocket handshake, or
established; Connection::get_established_ws yields the latter. -/
inductive WsConnection
  | handshaking
  | established (ws : EstablishedWs)
  deriving DecidableEq

/-- Routing metadata attached to every in or out message of the WebSocket
variant (ConnectionMeta in aquatic_ws common). -/
structure ConnectionMeta where
  worker_index : Nat
  poll_token : Nat
  naive_peer_addr : Nat
  converted_peer_ip : Nat
  deriving DecidableEq

/-- The WebSocket connection map, keyed by poll token. hashbrown HashMap is
modelled as an association list whose key uniqueness is maintained by the
explicit removals the code performs. -/
abbrev ConnectionMap : Type := List (Nat × WsConnection)

/-- HashMap lookup by poll token (first matching entry). -/
def lookupConn (m : ConnectionMap) (t : Nat) : Option WsConnection :=
  match m.find? (fun p => p.1 == t) with
  | some p => some p.2
  | none => none

/-- Replace the connection stored under a token (write back a mutated
connection obtained from get_mut). -/
def updateConn (m : ConnectionMap) (t : Nat) (c : WsConnection) : ConnectionMap :=
  m.map fun p => if p.1 == t then (p.1, c) else p

/-- Modelled from the spec: remove_connection_if_exists (utils.rs, not
under src/) - deregister the stream from poll and drop the map entry under
the token, when present. -/
def remove_connection_if_exists (m : ConnectionMap) (t : Nat) : ConnectionMap :=
  m.filter fun p => !(p.1 == t)

/-- Outcome of tungstenite write_message on an established socket, supplied
per token by the environment. -/
inductive WriteOutcome
  | accepted
  | wouldBlock
  | connectionClosed
  | otherError
  deriving DecidableEq

/-- send_out_messages from aquatic_ws network/mod.rs: for each queued
(meta, message) pair, look the connection up by poll token; only
established connections are considered; a peer address mismatch between
the envelope and the connection skips the message (logged, continue);
otherwise the message is written: on success it is recorded, WouldBlock
drops it silently, and a closed or failed socket removes the connection.
Returns the final map and the (token, message) pairs written. -/
def send_out_messages (envW : Nat → OutMessage → WriteOutcome) :
    List (ConnectionMeta × OutMessage) → ConnectionMap →
      ConnectionMap × List (Nat × OutMessage)
  | [], m => (m, [])
  | (meta, out) :: rest, m =>
    match lookupConn m meta.poll_token with
    | some (WsConnection.established ws) =>
      if ws.peer_addr ≠ meta.naive_peer_addr then
        send_out_messages envW rest m
      else
        match envW meta.poll_token out with
        | WriteOutcome.accepted =>
          let m2 := updateConn m meta.poll_token
            (WsConnection.established { ws with written := ws.written ++ [out] })
          let r := send_out_messages envW rest m2
          (r.1, (meta.poll_token, out) :: r.2)
        | WriteOutcome.wouldBlock => send_out_messages envW rest m
        | WriteOutcome.connectionClosed =>
          send_out_messages envW rest (remove_connection_if_exists m meta.poll_token)
        | WriteOutcome.otherError =>
          send_out_messages envW rest (remove_connection_if_exists m meta.poll_token)
    | _ => send_out_messages envW rest m

/-- Outcome of one listener.accept() call in accept_new_streams. -/
inductive AcceptEvent
  | accepted (stream : Nat)
  | wouldBlock
  | otherError
  deriving DecidableEq

/-- The usize wrap-around modulus (64-bit). -/
def usizeMod : Nat := 2 ^ 64

/-- accept_new_streams from aquatic_ws network/mod.rs, over a finite trace
of accept outcomes. For each accepted stream the poll token counter is
incremented with wrap-around and clamped up to 2 when it falls below 2
(tokens 0 and 1 are reserved for the listener and the channel); any
connection already registered under the resulting token is removed before
the new connection (starting in its handshake state) is inserted.
WouldBlock ends the loop; any other accept error is logged and the loop
continues. Returns the final map, the final counter and the tokens
assigned. -/
def accept_new_streams :
    List AcceptEvent → ConnectionMap → Nat → ConnectionMap × Nat × List Nat
  | [], m, tok => (m, tok, [])
  | AcceptEvent.wouldBlock :: _, m, tok => (m, tok, [])
  | AcceptEvent.otherError :: rest, m, tok => accept_new_streams rest m tok
  | AcceptEvent.accepted _ :: rest, m, tok =>
    let t1 := (tok + 1) % usizeMod
    let t2 := if t1 < 2 then 2 else t1
    let m1 := remove_connection_if_exists m t2
    let m2 := (t2, WsConnection.handshaking) :: m1
    let r := accept_new_streams rest m2 t2
    (r.1, r.2.1, t2 :: r.2.2)

/-- The trivial response codec used in concrete instances. -/
def write0 : Response → List Nat := fun _ => []

/-- Environment in which every mesh send is accepted. -/
def envOk : Nat → Bool := fun _ => true


/-- A connection already flagged for closing, used as a concrete instance. -/
def connClosed : Connection := { newConnection cfg4 0 0 7 with close_after_writing := true }

/-- A concrete mesh response addressed to connection id 0, peer address 3. -/
def respX : ChannelResponse := ChannelResponse.announce { payload := [] } 3 0 0

/-- An inbox with room for more responses. -/
def refRoom : ConnectionReference := { inbox := [], inbox_capacity := 4 }

/-- A slab holding connection id 0 with room in its inbox. -/
def slabRoom : Nat → Option ConnectionReference :=
  fun i => if i = 0 then some refRoom else none

/-- An established WebSocket peer at address 1. -/
def wsEstablished1 : EstablishedWs := { peer_addr := 1, written := [] }

/-- A WebSocket connection map with one established connection at token 5. -/
def mapWs : ConnectionMap := [(5, WsConnection.established wsEstablished1)]

/-- Routing metadata whose peer address disagrees with the connection at its
token. -/
def metaMismatch : ConnectionMeta :=
  { worker_index := 0, poll_token := 5, naive_peer_addr := 2, converted_peer_ip := 2 }

/-- A concrete out message. -/
def outMsg0 : OutMessage := { payload := 0 }

/-- A write environment in which every WebSocket write is accepted. -/
def envWOk : Nat → OutMessage → WriteOutcome := fun _ _ => WriteOutcome.accepted


/-- The pending scrape slot recorded for an empty scrape. -/
def emptyPending : PendingScrapeResponse := { pending_worker_responses := 0, stats := [] }

-- Theorems below; all definitions are above this line.

@[simp] theorem keysOf_nil : keysOf [] = [] := rfl

@[simp] theorem keysOf_cons (k : Nat) (v : List InfoHash) (m : List (Nat × List InfoHash)) :
    keysOf ((k, v) :: m) = k :: keysOf m := rfl

theorem btreeEntryPush_nil (k : Nat) (h : InfoHash) : btreeEntryPush k h [] = [(k, [h])] := rfl

theorem btreeEntryPush_cons_lt {k k2 : Nat} (h : InfoHash) (v : List InfoHash)
    (rest : List (Nat × List InfoHash)) (hlt : k < k2) :
    btreeEntryPush k h ((k2, v) :: rest) = (k, [h]) :: (k2, v) :: rest := by
  simp [btreeEntryPush, hlt]

theorem btreeEntryPush_cons_self (k : Nat) (h : InfoHash) (v : List InfoHash)
    (rest : List (Nat × List InfoHash)) :
    btreeEntryPush k h ((k, v) :: rest) = (k, v ++ [h]) :: rest := by
  simp [btreeEntryPush]

theorem btreeEntryPush_cons_gt {k k2 : Nat} (h : InfoHash) (v : List InfoHash)
    (rest : List (Nat × List InfoHash)) (hgt : k2 < k) :
    btreeEntryPush k h ((k2, v) :: rest) = (k2, v) :: btreeEntryPush k h rest := by
  have h1 : ¬ k < k2 := by omega
  have h2 : ¬ k = k2 := by omega
  simp [btreeEntryPush, h1, h2]

theorem mem_keysOf_btreeEntryPush (q k : Nat) (h : InfoHash)
    (m : List (Nat × List InfoHash)) :
    q ∈ keysOf (btreeEntryPush k h m) ↔ q = k ∨ q ∈ keysOf m := by
  induction m with
  | nil => simp [btreeEntryPush_nil, keysOf]
  | cons a rest ih =>
    obtain ⟨k2, v⟩ := a
    rcases Nat.lt_trichotomy k k2 with hlt | heq | hgt
    · rw [btreeEntryPush_cons_lt h v rest hlt]
      simp only [keysOf_cons, List.mem_cons]
      try tauto
    · subst heq
      rw [btreeEntryPush_cons_self]
      simp only [keysOf_cons, List.mem_cons]
      try tauto
    · rw [btreeEntryPush_cons_gt h v rest hgt]
      simp only [keysOf_cons, List.mem_cons, ih]
      try tauto

theorem sorted_keysOf_btreeEntryPush (k : Nat) (h : InfoHash)
    (m : List (Nat × List InfoHash)) (hs : (keysOf m).Sorted (· < ·)) :
    (keysOf (btreeEntryPush k h m)).Sorted (· < ·) := by
  induction m with
  | nil => simp [btreeEntryPush_nil, keysOf]
  | cons a rest ih =>
    obtain ⟨k2, v⟩ := a
    rw [keysOf_cons, List.sorted_cons] at hs
    obtain ⟨hall, hrest⟩ := hs
    rcases Nat.lt_trichotomy k k2 with hlt | heq | hgt
    · rw [btreeEntryPush_cons_lt h v rest hlt, keysOf_cons, keysOf_cons]
      refine List.sorted_cons.2 ⟨?_, List.sorted_cons.2 ⟨hall, hrest⟩⟩
      intro b hb
      rcases List.mem_cons.1 hb with rfl | hb2
      · exact hlt
      · exact hlt.trans (hall b hb2)
    · subst heq
      rw [btreeEntryPush_cons_self, keysOf_cons]
      exact List.sorted_cons.2 ⟨hall, hrest⟩
    · rw [btreeEntryPush_cons_gt h v rest hgt, keysOf_cons]
      refine List.sorted_cons.2 ⟨?_, ih hrest⟩
      intro b hb
      rcases (mem_keysOf_btreeEntryPush b k h rest).1 hb with rfl | hb2
      · exact hgt
      · exact hall b hb2

@[simp] theorem groupOf_nil (q : Nat) : groupOf q [] = [] := rfl

theorem groupOf_cons (q k : Nat) (v : List InfoHash) (m : List (Nat × List InfoHash)) :
    groupOf q ((k, v) :: m) = if k = q then v else groupOf q m := by
  by_cases h : k = q
  · rw [if_pos h]
    unfold groupOf
    rw [List.find?_cons_of_pos _ (by simpa using h)]
  · rw [if_neg h]
    unfold groupOf
    rw [List.find?_cons_of_neg _ (by simpa using h)]

theorem groupOf_eq_nil_of_not_mem (q : Nat) (m : List (Nat × List InfoHash))
    (hq : q ∉ keysOf m) : groupOf q m = [] := by
  induction m with
  | nil => rfl
  | cons p rest ih =>
    obtain ⟨k, v⟩ := p
    rw [keysOf_cons, List.mem_cons] at hq
    push_neg at hq
    rw [groupOf_cons, if_neg (fun hh => hq.1 hh.symm)]
    exact ih hq.2

theorem groupOf_btreeEntryPush (q k : Nat) (h : InfoHash)
    (m : List (Nat × List InfoHash)) (hs : (keysOf m).Sorted (· < ·)) :
    groupOf q (btreeEntryPush k h m) =
      if k = q then groupOf q m ++ [h] else groupOf q m := by
  induction m with
  | nil =>
    rw [btreeEntryPush_nil, groupOf_cons, groupOf_nil]
    by_cases hq : k = q
    · rw [if_pos hq, if_pos hq]
      rfl
    · rw [if_neg hq, if_neg hq]
  | cons p rest ih =>
    obtain ⟨k2, v⟩ := p
    rw [keysOf_cons, List.sorted_cons] at hs
    obtain ⟨hall, hrest⟩ := hs
    rcases Nat.lt_trichotomy k k2 with hlt | heq | hgt
    · rw [btreeEntryPush_cons_lt h v rest hlt, groupOf_cons]
      by_cases hq : k = q
      · subst hq
        have hnil : groupOf k ((k2, v) :: rest) = [] := by
          apply groupOf_eq_nil_of_not_mem
          rw [keysOf_cons, List.mem_cons]
          push_neg
          exact ⟨by omega, fun hmem => absurd (hall k hmem) (by omega)⟩
        rw [if_pos rfl, if_pos rfl, hnil]
        rfl
      · rw [if_neg hq, if_neg hq]
    · subst heq
      rw [btreeEntryPush_cons_self]
      simp only [groupOf_cons]
      by_cases hq : k = q
      · simp only [if_pos hq]
      · simp only [if_neg hq]
    · rw [btreeEntryPush_cons_gt h v rest hgt]
      simp only [groupOf_cons]
      by_cases hq2 : k2 = q
      · have hne : ¬ k = q := fun hh => by omega
        simp only [if_pos hq2, if_neg hne]
      · simp only [if_neg hq2]
        exact ih hrest

theorem exists_of_mem_groupOf {h : InfoHash} {q : Nat} {m : List (Nat × List InfoHash)}
    (hm : h ∈ groupOf q m) : ∃ p ∈ m, h ∈ p.2 := by
  unfold groupOf at hm
  rcases hfind : m.find? (fun p => p.1 == q) with _ | p
  · rw [hfind] at hm
    cases hm
  · rw [hfind] at hm
    exact ⟨p, List.mem_of_find?_eq_some hfind, hm⟩

theorem groupOf_of_mem (m : List (Nat × List InfoHash)) (p : Nat × List InfoHash)
    (hnd : (keysOf m).Nodup) (hp : p ∈ m) : groupOf p.1 m = p.2 := by
  induction m with
  | nil => cases hp
  | cons a rest ih =>
    obtain ⟨k, v⟩ := a
    rw [keysOf_cons, List.nodup_cons] at hnd
    rcases List.mem_cons.1 hp with rfl | hp2
    · rw [groupOf_cons, if_pos rfl]
    · rw [groupOf_cons]
      have hne : k ≠ p.1 := by
        intro hh
        exact hnd.1 (hh ▸ List.mem_map_of_mem Prod.fst hp2)
      rw [if_neg hne]
      exact ih hnd.2 hp2

theorem sorted_keysOf_info_hashes_by_worker (config : Config) (hs : List InfoHash) :
    (keysOf (info_hashes_by_worker config hs)).Sorted (· < ·) := by
  unfold info_hashes_by_worker
  suffices hgen : ∀ (l : List InfoHash) (m : List (Nat × List InfoHash)),
      (keysOf m).Sorted (· < ·) →
      (keysOf (l.foldl
        (fun m h => btreeEntryPush (calculate_request_consumer_index config h) h m)
        m)).Sorted (· < ·) by
    exact hgen hs [] (by simp)
  intro l
  induction l with
  | nil => intro m hm; simpa using hm
  | cons h rest ih =>
    intro m hm
    exact ih _ (sorted_keysOf_btreeEntryPush _ _ _ hm)

theorem mem_keysOf_info_hashes_by_worker (config : Config) (q : Nat) (hs : List InfoHash) :
    q ∈ keysOf (info_hashes_by_worker config hs) ↔
      q ∈ hs.map (calculate_request_consumer_index config) := by
  unfold info_hashes_by_worker
  suffices hgen : ∀ (l : List InfoHash) (m : List (Nat × List InfoHash)),
      (q ∈ keysOf (l.foldl
        (fun m h => btreeEntryPush (calculate_request_consumer_index config h) h m) m) ↔
      q ∈ keysOf m ∨ q ∈ l.map (calculate_request_consumer_index config)) by
    rw [hgen hs []]
    simp
  intro l
  induction l with
  | nil => intro m; simp
  | cons h rest ih =>
    intro m
    rw [List.foldl_cons, ih, mem_keysOf_btreeEntryPush]
    simp only [List.map_cons, List.mem_cons]
    tauto

theorem groupOf_info_hashes_by_worker (config : Config) (q : Nat) (hs : List InfoHash) :
    groupOf q (info_hashes_by_worker config hs) =
      hs.filter fun x => calculate_request_consumer_index config x == q := by
  unfold info_hashes_by_worker
  suffices hgen : ∀ (l : List InfoHash) (m : List (Nat × List InfoHash)),
      (keysOf m).Sorted (· < ·) →
      groupOf q (l.foldl
        (fun m h => btreeEntryPush (calculate_request_consumer_index config h) h m) m) =
      groupOf q m ++ (l.filter fun x => calculate_request_consumer_index config x == q) by
    rw [hgen hs [] (by simp)]
    rfl
  intro l
  induction l with
  | nil => intro m _; simp
  | cons h rest ih =>
    intro m hm
    rw [List.foldl_cons, ih _ (sorted_keysOf_btreeEntryPush _ _ _ hm),
      groupOf_btreeEntryPush _ _ _ _ hm]
    by_cases hq : calculate_request_consumer_index config h = q
    · simp [hq, List.filter_cons]
    · simp [hq, List.filter_cons]

theorem dispatchAll_fst (env : Nat → Bool) (l : List (Nat × ChannelRequest)) :
    (dispatchAll env l).1 = l.filter fun a => env a.1 := by
  induction l with
  | nil => rfl
  | cons a rest ih =>
    by_cases h : env a.1 <;> simp [dispatchAll, h, ih, List.filter_cons]

theorem dispatchAll_snd (env : Nat → Bool) (l : List (Nat × ChannelRequest)) :
    (dispatchAll env l).2 = (l.filter fun a => !(env a.1)).length := by
  induction l with
  | nil => rfl
  | cons a rest ih =>
    by_cases h : env a.1 <;> simp [dispatchAll, h, ih, List.filter_cons]

/-- C1: for a Scrape request with info hashes hs, handle_request produces one
mesh message per non-empty shard group: the number of messages equals the
number of distinct values byte0(h) mod R over the request, each message
carries exactly the info hashes of its group (the subset of hs whose index
is the message consumer index), the union of the message hash lists is
exactly the hash set of the request, and pending_worker_responses is set to
the number of groups. -/
theorem scrape_dispatch_shards (env : Nat → Bool) (s : Connection) (hs : List InfoHash)
    (hR : 0 < s.config.request_workers) :
    ((handle_request env s (Request.scrape { info_hashes := hs })).attempts.length
        = ((hs.map fun h => (h.bytes 0).val % s.config.request_workers).toFinset).card)
    ∧ (∀ p ∈ (handle_request env s (Request.scrape { info_hashes := hs })).attempts,
        scrapeHashesOf p.2
          = hs.filter fun h => calculate_request_consumer_index s.config h == p.1)
    ∧ (∀ h : InfoHash, h ∈ hs ↔
        ∃ p ∈ (handle_request env s (Request.scrape { info_hashes := hs })).attempts,
          h ∈ scrapeHashesOf p.2)
    ∧ pendingCountOf (handle_request env s (Request.scrape { info_hashes := hs })).state
        = some (handle_request env s (Request.scrape { info_hashes := hs })).attempts.length := by
  have hsorted := sorted_keysOf_info_hashes_by_worker s.config hs
  have hnd : (keysOf (info_hashes_by_worker s.config hs)).Nodup := hsorted.nodup
  have hattempts : (handle_request env s (Request.scrape { info_hashes := hs })).attempts
      = (info_hashes_by_worker s.config hs).map fun p =>
          (p.1, ChannelRequest.scrape { info_hashes := p.2 } s.peer_addr
            s.response_consumer_id s.connection_id) := rfl
  refine ⟨?_, ?_, ?_, ?_⟩
  · rw [hattempts, List.length_map]
    have h1 : (info_hashes_by_worker s.config hs).length
        = (keysOf (info_hashes_by_worker s.config hs)).length :=
      (List.length_map _ _).symm
    have h2 : (keysOf (info_hashes_by_worker s.config hs)).toFinset.card
        = (keysOf (info_hashes_by_worker s.config hs)).length :=
      List.toFinset_card_of_nodup hnd
    have h3 : (keysOf (info_hashes_by_worker s.config hs)).toFinset
        = (hs.map fun h => (h.bytes 0).val % s.config.request_workers).toFinset := by
      ext q
      rw [List.mem_toFinset, List.mem_toFinset,
        mem_keysOf_info_hashes_by_worker s.config q hs]
      rfl
    rw [h1, ← h2, h3]
  · intro p hp
    rw [hattempts] at hp
    obtain ⟨g, hg, rfl⟩ := List.mem_map.1 hp
    have hgv : g.2 = groupOf g.1 (info_hashes_by_worker s.config hs) :=
      (groupOf_of_mem _ _ hnd hg).symm
    rw [show scrapeHashesOf (ChannelRequest.scrape { info_hashes := g.2 } s.peer_addr
        s.response_consumer_id s.connection_id) = g.2 from rfl]
    rw [hgv, groupOf_info_hashes_by_worker]
  · intro h
    constructor
    · intro hh
      have hfil : h ∈ hs.filter fun x =>
          calculate_request_consumer_index s.config x
            == calculate_request_consumer_index s.config h :=
        List.mem_filter.2 ⟨hh, by simp⟩
      rw [← groupOf_info_hashes_by_worker] at hfil
      obtain ⟨g, hg, hmem⟩ := exists_of_mem_groupOf hfil
      refine ⟨(g.1, ChannelRequest.scrape { info_hashes := g.2 } s.peer_addr
        s.response_consumer_id s.connection_id), ?_, ?_⟩
      · rw [hattempts]
        exact List.mem_map.2 ⟨g, hg, rfl⟩
      · exact hmem
    · intro hex
      obtain ⟨p, hp, hmem⟩ := hex
      rw [hattempts] at hp
      obtain ⟨g, hg, rfl⟩ := List.mem_map.1 hp
      have hgv : g.2 = groupOf g.1 (info_hashes_by_worker s.config hs) :=
        (groupOf_of_mem _ _ hnd hg).symm
      have : h ∈ g.2 := hmem
      rw [hgv, groupOf_info_hashes_by_worker] at this
      exact List.mem_filter.1 this |>.1
  · rw [hattempts, List.length_map]
    rfl

/-- C1 witness: spec scenario 2 (R = 3, byte0 values 0, 3, 6, 7 giving shard
groups 0 and 1): two mesh messages and a pending count of 2. -/
theorem scrape_dispatch_shards_witness :
    (handle_request (fun _ => true) conn3 (Request.scrape { info_hashes := scrapeHs })).attempts.length = 2
    ∧ pendingCountOf (handle_request (fun _ => true) conn3
        (Request.scrape { info_hashes := scrapeHs })).state = some 2 := by
  have h := scrape_dispatch_shards (fun _ => true) conn3 scrapeHs (by decide)
  have hcard : ((scrapeHs.map fun h => (h.bytes 0).val % conn3.config.request_workers).toFinset).card = 2 := by decide
  exact ⟨h.1.trans hcard, h.2.2.2.trans (congrArg some (h.1.trans hcard))⟩

/-- C2: the consumer index for an info hash equals byte 0 mod R, it is in
range for R > 0, it depends only on request_workers (the function is pure),
and an Announce request produces exactly one mesh send attempt, to that
consumer index. -/
theorem announce_shard_index (c : Config) (h : InfoHash) (hR : 0 < c.request_workers) :
    calculate_request_consumer_index c h = (h.bytes 0).val % c.request_workers
    ∧ calculate_request_consumer_index c h < c.request_workers
    ∧ (∀ c2 : Config, c2.request_workers = c.request_workers →
        calculate_request_consumer_index c2 h = calculate_request_consumer_index c h)
    ∧ (∀ (env : Nat → Bool) (s : Connection) (r : AnnounceRequest),
        s.config = c → r.info_hash = h →
        (handle_request env s (Request.announce r)).attempts.map Prod.fst
          = [calculate_request_consumer_index c h]) := by
  refine ⟨rfl, Nat.mod_lt _ hR, ?_, ?_⟩
  · intro c2 hc2
    unfold calculate_request_consumer_index
    rw [hc2]
  · intro env s r hs hr
    subst hs
    subst hr
    rfl

/-- C2 witness: spec scenario 1 (R = 4, byte 0 equal to 9): the shard index
is 9 mod 4 = 1 and the Announce goes to consumer 1 only. -/
theorem announce_shard_index_witness :
    calculate_request_consumer_index cfg4 (constHash 9) = 1
    ∧ (handle_request (fun _ => true) conn4
        (Request.announce { info_hash := constHash 9 })).attempts.map Prod.fst = [1] := by
  have h := announce_shard_index cfg4 (constHash 9) (by decide)
  have hv : calculate_request_consumer_index cfg4 (constHash 9) = 1 := by decide
  refine ⟨hv, ?_⟩
  rw [h.2.2.2 (fun _ => true) conn4 { info_hash := constHash 9 } rfl rfl, hv]

/-- C6: mesh sends are non-blocking and never retried: for every request and
every send-outcome environment, handle_request returns Ok, leaves
close_after_writing and the queued TLS plaintext unchanged (the peer is not
notified of any drop), delivers exactly the attempts the mesh accepted,
logs exactly one warning per backpressured attempt, attempts each consumer
index at most once, and the attempt list does not depend on the send
outcomes. This covers both the Announce and the Scrape dispatch paths. -/
theorem dispatch_backpressure_drop (env : Nat → Bool) (s : Connection) (req : Request) :
    (handle_request env s req).result = Except.ok ()
    ∧ (handle_request env s req).state.close_after_writing = s.close_after_writing
    ∧ (handle_request env s req).state.tls_plaintext_out = s.tls_plaintext_out
    ∧ (handle_request env s req).delivered
        = (handle_request env s req).attempts.filter (fun a => env a.1)
    ∧ (handle_request env s req).warnings
        = ((handle_request env s req).attempts.filter fun a => !(env a.1)).length
    ∧ ((handle_request env s req).attempts.map Prod.fst).Nodup
    ∧ (handle_request env s req).attempts = (handle_request (fun _ => true) s req).attempts := by
  cases req with
  | announce r =>
    refine ⟨rfl, rfl, rfl, ?_, ?_, by simp [handle_request], rfl⟩
    · exact dispatchAll_fst env _
    · exact dispatchAll_snd env _
  | scrape r =>
    refine ⟨rfl, rfl, rfl, ?_, ?_, ?_, rfl⟩
    · exact dispatchAll_fst env _
    · exact dispatchAll_snd env _
    · have hnd : (keysOf (info_hashes_by_worker s.config r.info_hashes)).Nodup :=
        (sorted_keysOf_info_hashes_by_worker s.config r.info_hashes).nodup
      have : (handle_request env s (Request.scrape r)).attempts.map Prod.fst
          = keysOf (info_hashes_by_worker s.config r.info_hashes) := by
        show ((info_hashes_by_worker s.config r.info_hashes).map _).map Prod.fst
          = (info_hashes_by_worker s.config r.info_hashes).map Prod.fst
        rw [List.map_map]
        rfl
      rw [this]
      exact hnd

theorem itoaBytesAux_length (fuel : Nat) :
    ∀ n : Nat, n < fuel → (itoaBytesAux fuel n).length = num_digits_in_usizeAux fuel n := by
  induction fuel with
  | zero => intro n hn; omega
  | succ f ih =>
    intro n hn
    by_cases h : n < 10
    · simp [itoaBytesAux, num_digits_in_usizeAux, h]
    · have h2 : n / 10 < n := Nat.div_lt_self (by omega) (by omega)
      have h1 : n / 10 < f := by omega
      simp [itoaBytesAux, num_digits_in_usizeAux, h, ih _ h1]

theorem itoaBytes_length (n : Nat) : (itoaBytes n).length = num_digits_in_usize n :=
  itoaBytesAux_length (n + 1) n (by omega)

/-- C3: for every serialized response, the Content-Length value equals the
body length plus 2; the buffer is allocated with capacity exactly equal to
the fixed header bytes (37: status line, header name and both CRLF pairs)
plus the decimal digit count of the content length plus the body length
plus 2, the emitted bytes fill that capacity exactly, the bytes are handed
to the TLS writer, and a body of length 24 yields the header line
Content-Length: 26. -/
theorem queue_response_content_length (wr : Response → List Nat) (s : Connection)
    (resp : Response) :
    (queue_response wr s resp).content_len = (wr resp).length + 2
    ∧ (queue_response wr s resp).capacity
        = 37 + num_digits_in_usize ((queue_response wr s resp).content_len)
          + (wr resp).length + 2
    ∧ (queue_response wr s resp).response_bytes.length = (queue_response wr s resp).capacity
    ∧ (queue_response wr s resp).state.tls_plaintext_out
        = s.tls_plaintext_out ++ (queue_response wr s resp).response_bytes
    ∧ (queue_response (fun _ => List.replicate 24 100) s resp).response_bytes
        = asciiBytes ("HTTP/1.1 200 OK\r\nContent-Length: 26\r\n\r\n")
          ++ List.replicate 24 100 ++ asciiBytes ("\r\n") := by
  refine ⟨rfl, ?_, ?_, rfl, ?_⟩
  · show 39 + num_digits_in_usize ((wr resp).length + 2) + (wr resp).length
        = 37 + num_digits_in_usize ((wr resp).length + 2) + (wr resp).length + 2
    omega
  · show (asciiBytes ("HTTP/1.1 200 OK\r\nContent-Length: ")
        ++ itoaBytes ((wr resp).length + 2) ++ asciiBytes ("\r\n\r\n")
        ++ wr resp ++ asciiBytes ("\r\n")).length
        = 39 + num_digits_in_usize ((wr resp).length + 2) + (wr resp).length
    have h1 : (asciiBytes ("HTTP/1.1 200 OK\r\nContent-Length: ")).length = 33 := rfl
    have h2 : (asciiBytes ("\r\n\r\n")).length = 4 := rfl
    have h3 : (asciiBytes ("\r\n")).length = 2 := rfl
    simp only [List.length_append, h1, h2, h3, itoaBytes_length]
    omega
  · have hb : (queue_response (fun _ => List.replicate 24 100) s resp).response_bytes
        = asciiBytes ("HTTP/1.1 200 OK\r\nContent-Length: ")
          ++ itoaBytes 26 ++ asciiBytes ("\r\n\r\n")
          ++ List.replicate 24 100 ++ asciiBytes ("\r\n") := rfl
    rw [hb]
    decide

theorem finishResponse_close (wr : Response → List Nat) (s : Connection)
    (response : Response) (s1 : Connection) (r : Option Response)
    (h : finishResponse wr s response = Except.ok (s1, r))
    (hc : s.close_after_writing = true) : s1.close_after_writing = true := by
  simp only [finishResponse, Except.ok.injEq, Prod.mk.injEq] at h
  rw [← h.1]
  by_cases hk : ((queue_response wr s response).state).config.network_keep_alive
  · rw [if_pos hk]
    exact hc
  · rw [if_neg hk]

theorem read_tls_close_monotonic (wr : Response → List Nat)
    (parse : List Nat → ParseOutcome) (events : List ReadEvent) :
    ∀ (s s1 : Connection) (r : Option Request),
      read_tls wr parse s events = Except.ok (s1, r) →
      s.close_after_writing = true → s1.close_after_writing = true := by
  induction events with
  | nil =>
    intro s s1 r h hc
    simp only [read_tls, Except.ok.injEq, Prod.mk.injEq] at h
    rw [← h.1]
    exact hc
  | cons ev rest ih =>
    intro s s1 r h hc
    simp only [read_tls] at h
    split at h
    · simp only [Except.ok.injEq, Prod.mk.injEq] at h
      rw [← h.1]
    · split at h
      · exact Except.noConfusion h
      · split at h
        · split at h
          · simp only [Except.ok.injEq, Prod.mk.injEq] at h
            rw [← h.1]
            exact hc
          · exact ih _ _ _ h hc
        · split at h
          · simp only [Except.ok.injEq, Prod.mk.injEq] at h
            rw [← h.1]
            exact hc
          · split at h
            · simp only [Except.ok.injEq, Prod.mk.injEq] at h
              rw [← h.1]
              exact hc
            · exact ih _ _ _ h hc
          · simp only [Except.ok.injEq, Prod.mk.injEq] at h
            rw [← h.1]

theorem wait_close_monotonic (wr : Response → List Nat) (sc : Bool)
    (incoming : List ChannelResponse) :
    ∀ (s s1 : Connection) (r : Option Response),
      wait_for_and_send_response wr sc s incoming = Except.ok (s1, r) →
      s.close_after_writing = true → s1.close_after_writing = true := by
  induction incoming with
  | nil =>
    intro s s1 r h hc
    simp only [wait_for_and_send_response] at h
    split at h
    · exact Except.noConfusion h
    · simp only [Except.ok.injEq, Prod.mk.injEq] at h
      rw [← h.1]
      exact hc
  | cons cr rest ih =>
    intro s s1 r h hc
    simp only [wait_for_and_send_response] at h
    split at h
    · exact Except.noConfusion h
    · split at h
      · exact finishResponse_close _ _ _ _ _ h hc
      · split at h
        · split at h
          · exact finishResponse_close _ _ _ _ _ h hc
          · exact ih _ _ _ h hc
        · exact Except.noConfusion h

/-- C8: the close_after_writing flag is monotonic across the connection
lifecycle: it starts false at accept time, and none of reading TLS bytes,
handling a request, waiting for and queueing responses, queueing response
bytes, or writing TLS bytes ever clears it once it is true. -/
theorem close_after_writing_monotonic :
    (∀ (c : Config) (cid rcid pa : Nat),
        (newConnection c cid rcid pa).close_after_writing = false)
    ∧ (∀ (wr : Response → List Nat) (parse : List Nat → ParseOutcome)
        (s : Connection) (events : List ReadEvent) (s1 : Connection) (r : Option Request),
        read_tls wr parse s events = Except.ok (s1, r) →
        s.close_after_writing = true → s1.close_after_writing = true)
    ∧ (∀ (env : Nat → Bool) (s : Connection) (req : Request),
        s.close_after_writing = true →
        (handle_request env s req).state.close_after_writing = true)
    ∧ (∀ (wr : Response → List Nat) (sc : Bool) (s : Connection)
        (incoming : List ChannelResponse) (s1 : Connection) (r : Option Response),
        wait_for_and_send_response wr sc s incoming = Except.ok (s1, r) →
        s.close_after_writing = true → s1.close_after_writing = true)
    ∧ (∀ (wr : Response → List Nat) (s : Connection) (resp : Response),
        s.close_after_writing = true →
        (queue_response wr s resp).state.close_after_writing = true)
    ∧ (∀ (s : Connection), s.close_after_writing = true →
        (write_tls s).1.close_after_writing = true) := by
  refine ⟨fun c cid rcid pa => rfl,
    fun wr parse s events s1 r h hc => read_tls_close_monotonic wr parse events s s1 r h hc,
    fun env s req hc => ?_,
    fun wr sc s incoming s1 r h hc => wait_close_monotonic wr sc incoming s s1 r h hc,
    fun wr s resp hc => hc,
    fun s hc => hc⟩
  cases req with
  | announce r2 => exact hc
  | scrape r2 => exact hc

/-- C8 witness: a connection already flagged for closing keeps the flag
through handle_request. -/
theorem close_after_writing_monotonic_witness :
    (handle_request envOk connClosed
      (Request.scrape { info_hashes := [] })).state.close_after_writing = true :=
  close_after_writing_monotonic.2.2.1 envOk connClosed
    (Request.scrape { info_hashes := [] }) rfl

/-- C9: a scrape channel response arriving while the connection has no
pending scrape slot makes wait_for_and_send_response return an error rather
than silently dropping the stray response, and any wait error propagates
out of the handle_stream iteration, terminating the connection task. -/
theorem stray_scrape_response_fatal :
    (∀ (wr : Response → List Nat) (sc : Bool) (s : Connection)
        (response : ScrapeResponse) (cid coid : Nat) (rest : List ChannelResponse),
        s.pending_scrape_response = none →
        wait_for_and_send_response wr sc s
            (ChannelResponse.scrape response s.peer_addr cid coid :: rest)
          = Except.error WaitError.scrapeWithoutPending)
    ∧ (∀ (env : Nat → Bool) (wr : Response → List Nat)
        (parse : List Nat → ParseOutcome) (sc : Bool) (s : Connection)
        (events : List ReadEvent) (incoming : List ChannelResponse)
        (s1 : Connection) (request : Request) (e : WaitError),
        read_tls wr parse s events = Except.ok (s1, some request) →
        wait_for_and_send_response wr sc (handle_request env s1 request).state incoming
          = Except.error e →
        handle_stream_step env wr parse sc s events incoming
          = Except.error (StreamError.wait e)) := by
  constructor
  · intro wr sc s response cid coid rest hpend
    simp only [wait_for_and_send_response, ChannelResponse.get_peer_addr, ne_eq,
      not_true_eq_false, if_neg, hpend]
    rfl
  · intro env wr parse sc s events incoming s1 request e h1 h2
    simp only [handle_stream_step, h1, h2]

/-- C9 witness: a connection with no pending scrape slot receiving a scrape
response fails with the scrapeWithoutPending error. -/
theorem stray_scrape_response_fatal_witness :
    wait_for_and_send_response write0 false conn3
        (ChannelResponse.scrape { files := [] } conn3.peer_addr 0 0 :: [])
      = Except.error WaitError.scrapeWithoutPending :=
  stray_scrape_response_fatal.1 write0 false conn3 { files := [] } 0 0 [] rfl

/-- C4 (amended): for a scrape whose info-hash set is empty the socket
worker sends no mesh messages and records a pending scrape slot with a
zero count and empty stats, but it emits no response at all: no shard
responses will ever arrive, so the gather loop stays suspended and the
empty-files scrape response is never produced. -/
theorem empty_scrape_no_messages (env : Nat → Bool) (wr : Response → List Nat)
    (s : Connection) (workerFiles : Nat → List (InfoHash × ScrapeStatistics)) :
    (handle_request env s (Request.scrape { info_hashes := [] })).attempts = []
    ∧ (handle_request env s (Request.scrape { info_hashes := [] })).state.pending_scrape_response
        = some emptyPending
    ∧ scrape_session env wr s [] workerFiles
        = Except.ok ({ s with pending_scrape_response := some emptyPending },
            (none : Option Response)) :=
  ⟨rfl, rfl, rfl⟩

/-- C4 counterexample: at the concrete empty scrape no mesh message is sent
and the session produces no response at all, refuting the claim that the
peer receives a scrape response with an empty files map. -/
theorem empty_scrape_counterexample :
    (handle_request envOk conn3 (Request.scrape { info_hashes := [] })).attempts = []
    ∧ (scrape_session envOk write0 conn3 [] (fun _ => [])).map (fun p => p.2)
        = Except.ok (none : Option Response)
    ∧ (scrape_session envOk write0 conn3 [] (fun _ => [])).map (fun p => p.2)
        ≠ Except.ok (some (Response.scrape { files := [] })) := by
  refine ⟨rfl, rfl, ?_⟩
  intro h
  rw [show (scrape_session envOk write0 conn3 [] (fun _ => [])).map (fun p => p.2)
      = Except.ok (none : Option Response) from rfl] at h
  exact absurd h (by simp)

/-- C5 (amended): before accepting a response the HTTP connection compares
the envelope peer address with its live peer address and a mismatch is a
fatal connection error (wait_for_and_send_response errors, terminating the
task); the WebSocket variant also performs the comparison, but there a
mismatch only causes the message to be skipped (logged) while the
connection stays in the map. -/
theorem peer_addr_check (wr : Response → List Nat) (sc : Bool) (s : Connection)
    (cr : ChannelResponse) (rest : List ChannelResponse)
    (hmis : cr.get_peer_addr ≠ s.peer_addr) :
    wait_for_and_send_response wr sc s (cr :: rest) = Except.error WaitError.peerAddrMismatch
    ∧ (∀ (envW : Nat → OutMessage → WriteOutcome) (m : ConnectionMap)
        (meta : ConnectionMeta) (out : OutMessage)
        (rest2 : List (ConnectionMeta × OutMessage)) (ws : EstablishedWs),
        lookupConn m meta.poll_token = some (WsConnection.established ws) →
        ws.peer_addr ≠ meta.naive_peer_addr →
        send_out_messages envW ((meta, out) :: rest2) m
          = send_out_messages envW rest2 m) := by
  constructor
  · simp only [wait_for_and_send_response]
    rw [if_pos hmis]
  · intro envW m meta out rest2 ws hlook hmis2
    simp only [send_out_messages, hlook]
    rw [if_pos hmis2]

/-- C5 witness: a response whose envelope address 3 disagrees with the
connection peer address 7 is rejected with the peerAddrMismatch error. -/
theorem peer_addr_check_witness :
    wait_for_and_send_response write0 false conn3
        (ChannelResponse.announce { payload := [] } 3 0 0 :: [])
      = Except.error WaitError.peerAddrMismatch :=
  (peer_addr_check write0 false conn3 (ChannelResponse.announce { payload := [] } 3 0 0)
    [] (by decide)).1

/-- C5 counterexample: in the WebSocket variant a peer address mismatch does
not terminate the connection: the message is skipped, nothing is written,
and the connection under token 5 is still in the map afterwards. -/
theorem peer_addr_check_ws_counterexample :
    send_out_messages envWOk [(metaMismatch, outMsg0)] mapWs = (mapWs, [])
    ∧ lookupConn (send_out_messages envWOk [(metaMismatch, outMsg0)] mapWs).1 5
        = some (WsConnection.established wsEstablished1) := ⟨rfl, rfl⟩

/-- C7 (amended): the response demultiplexer looks the connection up by the
envelope connection id and forwards with a non-blocking send: when the slab
entry is gone the response is dropped silently (no log entry); when the
inbox is full it is dropped and an error is logged; otherwise it is
appended to the inbox of exactly that connection, every other slab entry
unchanged. The step is a total function of the slab, never blocking on an
inbox. -/
theorem receive_responses_demux (slab : Nat → Option ConnectionReference)
    (resp : ChannelResponse) :
    (slab resp.get_connection_id = none →
      (receive_responses_step slab resp).slab = slab
      ∧ (receive_responses_step slab resp).logs = []
      ∧ (receive_responses_step slab resp).delivered = false)
    ∧ (∀ reference, slab resp.get_connection_id = some reference →
        (reference.inbox.length < reference.inbox_capacity →
          (receive_responses_step slab resp).delivered = true
          ∧ (receive_responses_step slab resp).slab resp.get_connection_id
              = some { reference with inbox := reference.inbox ++ [resp] }
          ∧ (∀ j, j ≠ resp.get_connection_id →
              (receive_responses_step slab resp).slab j = slab j)
          ∧ (receive_responses_step slab resp).logs = [])
        ∧ (¬ reference.inbox.length < reference.inbox_capacity →
          (receive_responses_step slab resp).delivered = false
          ∧ (receive_responses_step slab resp).slab = slab
          ∧ (receive_responses_step slab resp).logs = [DemuxLog.sendFailed])) := by
  constructor
  · intro hnone
    have hstep : receive_responses_step slab resp
        = { slab := slab, logs := [], delivered := false } := by
      simp only [receive_responses_step, hnone]
    rw [hstep]
    exact ⟨rfl, rfl, rfl⟩
  · intro reference href
    constructor
    · intro hroom
      have hstep : receive_responses_step slab resp
          = { slab := Function.update slab resp.get_connection_id
                (some { reference with inbox := reference.inbox ++ [resp] })
              logs := []
              delivered := true } := by
        simp only [receive_responses_step, href, inbox_try_send, if_pos hroom]
      rw [hstep]
      refine ⟨rfl, ?_, ?_, rfl⟩
      · exact Function.update_same _ _ _
      · intro j hj
        exact Function.update_noteq hj _ _
    · intro hfull
      have hstep : receive_responses_step slab resp
          = { slab := slab, logs := [DemuxLog.sendFailed], delivered := false } := by
        simp only [receive_responses_step, href, inbox_try_send, if_neg hfull]
      rw [hstep]
      exact ⟨rfl, rfl, rfl⟩

/-- C7 witness: a response for a present connection with inbox room is
delivered without any error log. -/
theorem receive_responses_demux_witness :
    (receive_responses_step slabRoom respX).delivered = true
    ∧ (receive_responses_step slabRoom respX).logs = [] := by
  have h := ((receive_responses_demux slabRoom respX).2 refRoom rfl).1 (by decide)
  exact ⟨h.1, h.2.2.2⟩

/-- C7 counterexample: when the slab entry for the connection id is gone
the response is dropped but nothing is logged, refuting the claim that such
a drop is logged. -/
theorem receive_responses_missing_entry_counterexample :
    (receive_responses_step (fun _ => none) respX).delivered = false
    ∧ (receive_responses_step (fun _ => none) respX).logs = [] := ⟨rfl, rfl⟩

theorem keys_remove_connection_if_exists (m : ConnectionMap) (t : Nat) :
    (remove_connection_if_exists m t).map Prod.fst
      = (m.map Prod.fst).filter (fun x => !(x == t)) := by
  induction m with
  | nil => rfl
  | cons p rest ih =>
    by_cases h : p.1 = t
    · simp [remove_connection_if_exists, List.filter_cons, h] at ih ⊢
      exact ih
    · simp [remove_connection_if_exists, List.filter_cons, h] at ih ⊢
      exact ih

theorem nodup_keys_remove (m : ConnectionMap) (t : Nat)
    (h : (m.map Prod.fst).Nodup) :
    ((remove_connection_if_exists m t).map Prod.fst).Nodup := by
  rw [keys_remove_connection_if_exists]
  exact h.filter _

theorem not_mem_keys_remove (m : ConnectionMap) (t : Nat) :
    t ∉ (remove_connection_if_exists m t).map Prod.fst := by
  rw [keys_remove_connection_if_exists]
  intro hmem
  have h2 := (List.mem_filter.1 hmem).2
  simp at h2

theorem accept_tokens_ge_two (events : List AcceptEvent) :
    ∀ (m : ConnectionMap) (tok : Nat) (t : Nat),
      t ∈ (accept_new_streams events m tok).2.2 → 2 ≤ t := by
  induction events with
  | nil =>
    intro m tok t ht
    simp [accept_new_streams] at ht
  | cons ev rest ih =>
    cases ev with
    | wouldBlock =>
      intro m tok t ht
      simp [accept_new_streams] at ht
    | otherError =>
      intro m tok t ht
      exact ih m tok t ht
    | accepted stream =>
      intro m tok t ht
      simp only [accept_new_streams] at ht
      rcases List.mem_cons.1 ht with rfl | ht2
      · by_cases hlt : (tok + 1) % usizeMod < 2
        · rw [if_pos hlt]
        · rw [if_neg hlt]
          omega
      · exact ih _ _ _ ht2

theorem accept_keys_nodup (events : List AcceptEvent) :
    ∀ (m : ConnectionMap) (tok : Nat), (m.map Prod.fst).Nodup →
      ((accept_new_streams events m tok).1.map Prod.fst).Nodup := by
  induction events with
  | nil => intro m tok h; exact h
  | cons ev rest ih =>
    cases ev with
    | wouldBlock => intro m tok h; exact h
    | otherError => intro m tok h; exact ih m tok h
    | accepted stream =>
      intro m tok h
      refine ih _ _ ?_
      rw [List.map_cons, List.nodup_cons]
      exact ⟨not_mem_keys_remove _ _, nodup_keys_remove _ _ h⟩

/-- C10: every poll token assigned by accept_new_streams is at least 2 (the
counter wraps around but skips the reserved tokens 0 and 1), any existing
connection under a token is removed before the new connection is inserted,
and so the connection map keeps distinct tokens - at most one connection
per token - after every accept, even across counter wrap-around. -/
theorem accept_token_invariants (events : List AcceptEvent) (m : ConnectionMap)
    (tok : Nat) (hnd : (m.map Prod.fst).Nodup) :
    (∀ t ∈ (accept_new_streams events m tok).2.2, 2 ≤ t)
    ∧ ((accept_new_streams events m tok).1.map Prod.fst).Nodup
    ∧ (∀ t, ((accept_new_streams events m tok).1.map Prod.fst).count t ≤ 1) := by
  have h2 := accept_keys_nodup events m tok hnd
  exact ⟨fun t ht => accept_tokens_ge_two events m tok t ht, h2,
    fun t => List.nodup_iff_count_le_one.1 h2 t⟩

/-- C10 witness: accepting one stream just as the counter wraps around
(counter at the maximal usize) assigns token 2 and keeps the map keys
distinct. -/
theorem accept_token_invariants_witness :
    2 ≤ ((accept_new_streams [AcceptEvent.accepted 0] [] (usizeMod - 1)).2.2.headD 0)
    ∧ (((accept_new_streams [AcceptEvent.accepted 0] [] (usizeMod - 1)).1).map
        Prod.fst).Nodup := by
  have h := accept_token_invariants [AcceptEvent.accepted 0] [] (usizeMod - 1) (by simp)
  exact ⟨h.1 _ (by decide), h.2.1⟩
